import Mathlib

/-!
Verification development for the control-flag common utility layer
(src/common_util.h): the error taxonomy, the assertion guard, the
managed tree-sitter tree wrapper, the grammar-parameterized parser
entry points, the node-of-interest collector, and the microsecond
timer.

Embedding conventions:
* C++ exceptions become values of `CfException`; a fallible operation
  returns `Except CfException α`.
* The external tree-sitter engine is opaque: a `TSTree` is an opaque
  handle, and engine operations (parse, ts_node_has_error,
  ts_node_string) are fields of an abstract `TSLanguageEngine` record
  or explicit function parameters.
* `time_t` and `suseconds_t` are signed integral types; they are
  modelled as `Int`, with C truncated division and remainder
  (`Int.tdiv`, `Int.tmod`) for the `/` and `%` operators.
* `std::unique_ptr<TSTree, TSTreeDeleter>` is modelled by its
  standard-mandated semantics: it holds an optional raw pointer, and
  its destructor invokes the deleter on the held pointer exactly when
  the pointer is non-null.  Calls to `ts_tree_delete` are made
  observable as a list of `DeleteCall` events.
-/

/-- The exception taxonomy of common_util.h: `cf_string_exception` is the
base carrying a message; the three subclasses prefix their argument with a
fixed tag (see `CfException.what`). -/
inductive CfException where
  | stringException (message : String)
  | fileAccess (error : String)
  | parseError (expression : String)
  | unexpectedSituation (error : String)
deriving DecidableEq, Repr

/-- The `what()` message of each exception, exactly as the constructors in
common_util.h build it. -/
def CfException.what : CfException → String
  | .stringException m => m
  | .fileAccess e => "File access failed: " ++ e
  | .parseError e => "Parse error in expression:" ++ e
  | .unexpectedSituation e => "Assert failed: " ++ e

/-- `cf_assert(bool, const std::string&)`: throws `cf_unexpected_situation`
with the given message when the condition is false, otherwise does
nothing. -/
def cf_assert (value : Bool) (message : String) : Except CfException Unit :=
  if value = false then Except.error (CfException.unexpectedSituation message)
  else Except.ok ()

/-- An opaque handle to a tree allocated by the external tree-sitter
engine. -/
structure TSTree where
  id : Nat
deriving DecidableEq, Repr

/-- An opaque handle to a node of a tree-sitter tree. -/
structure TSNode where
  id : Nat
deriving DecidableEq, Repr

/-- `cf_assert(bool, const std::string&, const TSNode&)`: C++ evaluates the
argument expression `message + ts_node_string(node)` before entering the
string overload, so the external `ts_node_string` call happens
unconditionally.  The call is recorded in the first component of the
result; `ts_node_string` itself is the abstract parameter `f`. -/
def cf_assert_ts (f : TSNode → String) (value : Bool) (message : String)
    (node : TSNode) : List TSNode × Except CfException Unit :=
  ([node], cf_assert value (message ++ f node))

/-- An observable record that `ts_tree_delete` was invoked on a tree. -/
structure DeleteCall where
  tree : TSTree
deriving DecidableEq, Repr

/-- The external engine call `ts_tree_delete(tree)`, as an event. -/
def ts_tree_delete (t : TSTree) : DeleteCall := DeleteCall.mk t

/-- `TSTreeDeleter::operator()(TSTree*)`: unconditionally calls
`ts_tree_delete` on its argument, exactly once. -/
def TSTreeDeleter (t : TSTree) : List DeleteCall := [ts_tree_delete t]

/-- `ManagedTSTree = std::unique_ptr<TSTree, TSTreeDeleter>`: holds either a
tree or nothing (null). -/
structure ManagedTSTree where
  ptr : Option TSTree
deriving DecidableEq, Repr

/-- The `unique_ptr` destructor: per the C++ standard, if `get() == nullptr`
there are no effects, otherwise it invokes `get_deleter()(get())` — here
`TSTreeDeleter`.  Returns the deletion calls performed and the resulting
(empty) holder state. -/
def uniquePtrDestroy : ManagedTSTree → List DeleteCall × ManagedTSTree
  | ⟨none⟩ => ([], ⟨none⟩)
  | ⟨some t⟩ => (TSTreeDeleter t, ⟨none⟩)

/-- The `unique_ptr::release()` operation: gives up ownership without
deleting, leaving the holder empty. -/
def uniquePtrRelease : ManagedTSTree → Option TSTree × ManagedTSTree
  | ⟨p⟩ => (p, ⟨none⟩)

/-- The external parsing engine for one grammar (`Language` template
argument), as the spec describes it: a parse operation producing a tree
(possibly containing error nodes), an error-node test on the resulting
tree (`ts_node_has_error` on the root), and a way to render the offending
fragment for diagnostics. -/
structure TSLanguageEngine where
  parse : String → TSTree
  hasError : TSTree → Bool
  offendingFragment : String → TSTree → String

/-- Modelled from the spec: the body of the string overload
`template <Language L> ManagedTSTree GetTSTree(const std::string&, bool)`
is not under src/ (only its declaration at common_util.h:94-96 is).
Per spec §4.4: invoke the external engine for the grammar; if
`report_parse_errors` is true and the resulting tree contains
unrecoverable/error nodes, fail with a Parse failure identifying the
offending fragment; otherwise return the (possibly partially-erroneous)
tree without inspection. -/
def GetTSTree (eng : TSLanguageEngine) (source_code : String)
    (report_parse_errors : Bool) : Except CfException ManagedTSTree :=
  let tree := eng.parse source_code
  if report_parse_errors && eng.hasError tree then
    Except.error (CfException.parseError (eng.offendingFragment source_code tree))
  else
    Except.ok ⟨some tree⟩

/-- The declared default of the string overload: `report_parse_errors`
defaults to `false` (common_util.h:96). -/
def GetTSTreeDefault (eng : TSLanguageEngine) (source_code : String) :
    Except CfException ManagedTSTree :=
  GetTSTree eng source_code false

/-- Modelled from the spec: the body of the file overload
`template <Language L> ManagedTSTree GetTSTree(const std::string&, std::string&)`
is not under src/ (only its declaration at common_util.h:89-91 is).
Per spec §4.4: read the file fully into memory; fail with a File-access
failure carrying the underlying error description if the read fails;
otherwise delegate to the string-based entry point (with its default
`report_parse_errors = false`) and also return the contents verbatim.
The file system is the abstract parameter `fs`, mapping a path to the
file contents or an I/O error description. -/
def GetTSTreeFromFile (eng : TSLanguageEngine) (fs : String → Except String String)
    (source_file : String) : Except CfException (ManagedTSTree × String) :=
  match fs source_file with
  | Except.error e => Except.error (CfException.fileAccess e)
  | Except.ok contents =>
      Except.map (fun t => (t, contents)) (GetTSTree eng contents false)

mutual
/-- A concrete-syntax-tree node: a kind tag plus an ordered forest of
children. -/
inductive CSTNode where
  | node : Nat → CSTForest → CSTNode
deriving DecidableEq, Repr
/-- An ordered forest of concrete-syntax-tree nodes. -/
inductive CSTForest where
  | nil : CSTForest
  | cons : CSTNode → CSTForest → CSTForest
deriving DecidableEq, Repr
end

/-- A grammar identifier, as far as this layer observes it: it supplies the
grammar-specific node-of-interest predicate, a pure function of the
node. -/
structure Grammar where
  interest : CSTNode → Bool

mutual
/-- Modelled from the spec: pre-order depth-first traversal appending every
node matching the predicate, the node-level half of the collector. -/
def collectNode (pred : CSTNode → Bool) (acc : List CSTNode) :
    CSTNode → List CSTNode
  | CSTNode.node k f =>
      collectForest pred
        (if pred (CSTNode.node k f) then acc ++ [CSTNode.node k f] else acc) f
/-- Modelled from the spec: the forest-level half of the collector
traversal. -/
def collectForest (pred : CSTNode → Bool) (acc : List CSTNode) :
    CSTForest → List CSTNode
  | CSTForest.nil => acc
  | CSTForest.cons c f => collectForest pred (collectNode pred acc c) f
end

/-- Modelled from the spec: the body of
`template <Language G> void CollectCodeBlocksOfInterest(const TSNode&, code_blocks_t&)`
is not under src/ (only its declaration at common_util.h:98-104 is).
Per spec §4.5: traverse the subtree rooted at the given node in
deterministic pre-order depth-first order and append every node matching
the grammar's interest predicate to the caller-supplied sequence, in
traversal order, never clearing it. -/
def CollectCodeBlocksOfInterest (g : Grammar) (root_node : CSTNode)
    (code_blocks : List CSTNode) : List CSTNode :=
  collectNode g.interest code_blocks root_node

mutual
/-- The pre-order node sequence of a tree, the reference order for the
collector. -/
def preorder : CSTNode → List CSTNode
  | CSTNode.node k f => CSTNode.node k f :: preorderForest f
/-- The pre-order node sequence of a forest. -/
def preorderForest : CSTForest → List CSTNode
  | CSTForest.nil => []
  | CSTForest.cons c f => preorder c ++ preorderForest f
end

/-- `struct timeval`: seconds (`time_t`) and microseconds (`suseconds_t`),
both signed integral types. -/
structure Timeval where
  tv_sec : Int
  tv_usec : Int
deriving DecidableEq, Repr

/-- The `Timer` state: the two captured timestamps `start_tv_` and
`end_tv_`. -/
structure Timer where
  start_tv_ : Timeval
  end_tv_ : Timeval
deriving DecidableEq, Repr

/-- `Timer::StartTimer()`: calls `gettimeofday(&start_tv_, NULL)` and
returns its return code.  The system call outcome (return code and the
timestamp it writes) is the explicit input `sys`. -/
def StartTimer (sys : Int × Timeval) (t : Timer) : Int × Timer :=
  (sys.1, { t with start_tv_ := sys.2 })

/-- `Timer::StopTimer()`: calls `gettimeofday(&end_tv_, NULL)` and returns
its return code. -/
def StopTimer (sys : Int × Timeval) (t : Timer) : Int × Timer :=
  (sys.1, { t with end_tv_ := sys.2 })

/-- The lambda `timeval2microsec` inside `Timer::TimerDiffToTimeval`:
`tv.tv_sec * 1000000 + tv.tv_usec`. -/
def timeval2microsec (tv : Timeval) : Int :=
  tv.tv_sec * 1000000 + tv.tv_usec

/-- `Timer::TimerDiffToTimeval()`: converts both timestamps to microsecond
counts, subtracts, and splits the difference with C integer `/` and `%`
(truncated toward zero) by 1000000.  No validation of timer state is
performed. -/
def TimerDiffToTimeval (t : Timer) : Timeval :=
  let diff_microsec := timeval2microsec t.end_tv_ - timeval2microsec t.start_tv_
  { tv_sec := Int.tdiv diff_microsec 1000000
    tv_usec := Int.tmod diff_microsec 1000000 }

/-- `std::ostream` insertion of an integer under `width(w)` and `fill(c)`
with the default right adjustment: the decimal text is padded on the left
with the fill character when shorter than the field width. -/
def ostreamPad (w : Nat) (c : Char) (s : String) : String :=
  if s.length < w then String.mk (List.replicate (w - s.length) c) ++ s else s

/-- The formatting part of `Timer::TimerDiff()`, applied to the timeval it
obtained from `TimerDiffToTimeval`: stream `tv_sec`, then ".", then
`tv_usec / 1000` under `width(3)` and `fill('0')`. -/
def formatTimeval (d : Timeval) : String :=
  toString d.tv_sec ++ "." ++ ostreamPad 3 '0' (toString (Int.tdiv d.tv_usec 1000))

/-- `Timer::TimerDiff()`: formats `TimerDiffToTimeval()` as above. -/
def TimerDiff (t : Timer) : String :=
  formatTimeval (TimerDiffToTimeval t)

/-- The spec's rendering contract, from its words: the seconds value, a
dot, then the microseconds truncated to milliseconds and zero-padded to
exactly 3 digits. -/
def threeDigitString (n : Nat) : String :=
  String.mk [Nat.digitChar (n / 100 % 10), Nat.digitChar (n / 10 % 10),
    Nat.digitChar (n % 10)]

/-- The spec-side formatted difference, for comparison with the source's
`formatTimeval`. -/
def formattedDiffSpec (d : Timeval) : String :=
  toString d.tv_sec ++ "." ++ threeDigitString (d.tv_usec.toNat / 1000)

/-! ### Helper lemmas -/

mutual
theorem collectNode_eq (pred : CSTNode → Bool) :
    (n : CSTNode) → (acc : List CSTNode) →
    collectNode pred acc n = acc ++ (preorder n).filter pred
  | CSTNode.node k f, acc => by
    by_cases hp : pred (CSTNode.node k f) = true <;>
      simp [collectNode, preorder, collectForest_eq pred f, hp]
theorem collectForest_eq (pred : CSTNode → Bool) :
    (f : CSTForest) → (acc : List CSTNode) →
    collectForest pred acc f = acc ++ (preorderForest f).filter pred
  | CSTForest.nil, acc => by simp [collectForest, preorderForest]
  | CSTForest.cons c f, acc => by
    simp [collectForest, preorderForest, collectForest_eq pred f,
      collectNode_eq pred c]
end

set_option maxRecDepth 10000 in
theorem ostreamPad_eq_threeDigit :
    ∀ j : Nat, j < 1000 → ostreamPad 3 '0' (toString j) = threeDigitString j := by
  decide

/-! ### Claim theorems -/

/-- C1: Destroying a `ManagedTSTree` invokes `ts_tree_delete` exactly once,
and only if the holder currently holds a tree; destroying an empty or
already-released holder performs no deletion call, so a second destruction
after release (or after a first destruction) is a no-op. -/
theorem managedTree_delete_exactly_once (m : ManagedTSTree) :
    (match m.ptr with
      | some t => (uniquePtrDestroy m).1 = [ts_tree_delete t]
      | none => (uniquePtrDestroy m).1 = []) ∧
    (uniquePtrDestroy (uniquePtrDestroy m).2).1 = [] ∧
    (uniquePtrDestroy (uniquePtrRelease m).2).1 = [] := by
  obtain ⟨p⟩ := m
  cases p <;> simp [uniquePtrDestroy, uniquePtrRelease, TSTreeDeleter]

/-- C2: For every readable file, the file-based entry point returns exactly
what the string-based entry point returns on the file's contents, paired
with those contents verbatim; if the read fails it fails with a
File-access failure carrying the underlying error, without delegating. -/
theorem getTSTreeFromFile_delegates (eng : TSLanguageEngine)
    (fs : String → Except String String) (source_file : String) :
    match fs source_file with
    | Except.error e =>
        GetTSTreeFromFile eng fs source_file =
          Except.error (CfException.fileAccess e)
    | Except.ok contents =>
        GetTSTreeFromFile eng fs source_file =
          Except.map (fun t => (t, contents)) (GetTSTree eng contents false) := by
  cases h : fs source_file <;> simp [GetTSTreeFromFile, h]

/-- C3: The string-based entry point raises a Parse failure identifying the
offending fragment if and only if `report_parse_errors` is true and the
resulting tree contains error nodes; with the declared default
(`report_parse_errors = false`) it returns the possibly partially-erroneous
tree without inspection. -/
theorem getTSTree_parse_error_iff (eng : TSLanguageEngine) (s : String)
    (r : Bool) :
    ((∃ e, GetTSTree eng s r = Except.error e) ↔
      r = true ∧ eng.hasError (eng.parse s) = true) ∧
    (GetTSTree eng s r =
        Except.error
          (CfException.parseError (eng.offendingFragment s (eng.parse s))) ↔
      r = true ∧ eng.hasError (eng.parse s) = true) ∧
    GetTSTree eng s false = Except.ok ⟨some (eng.parse s)⟩ ∧
    GetTSTreeDefault eng s = GetTSTree eng s false := by
  cases r <;> cases h : eng.hasError (eng.parse s) <;>
    simp [GetTSTree, GetTSTreeDefault, h]

/-- C4: The collector is deterministic (two runs with the same tree,
grammar and starting sequence produce identical output), appends exactly
the pre-order nodes satisfying the grammar's interest predicate in
traversal order, and from an empty sequence its output length equals the
count of matching nodes. -/
theorem collect_deterministic_counts (g : Grammar) (root : CSTNode)
    (blocks : List CSTNode) :
    CollectCodeBlocksOfInterest g root blocks =
        CollectCodeBlocksOfInterest g root blocks ∧
    CollectCodeBlocksOfInterest g root blocks =
        blocks ++ (preorder root).filter g.interest ∧
    (CollectCodeBlocksOfInterest g root []).length =
        (preorder root).countP g.interest := by
  refine ⟨rfl, collectNode_eq g.interest root blocks, ?_⟩
  rw [CollectCodeBlocksOfInterest, collectNode_eq g.interest root []]
  simp [List.countP_eq_length_filter]

/-- C5: `cf_assert` raises an Invariant-violation failure carrying the
message exactly when the condition is false; the `TSNode` overload embeds
the node's textual form in the raised message; a true condition raises
nothing. -/
theorem cf_assert_raises_iff (v : Bool) (m : String) (f : TSNode → String)
    (n : TSNode) :
    (cf_assert v m = Except.error (CfException.unexpectedSituation m) ↔
      v = false) ∧
    cf_assert true m = Except.ok () ∧
    ((cf_assert_ts f v m n).2 =
        Except.error (CfException.unexpectedSituation (m ++ f n)) ↔
      v = false) := by
  cases v <;> simp [cf_assert, cf_assert_ts]

/-- C6: When the stop timestamp's total microsecond count is at least the
start timestamp's, `TimerDiffToTimeval` returns a normalized difference:
non-negative seconds, microseconds in [0, 1000000), and the pair
representing exactly the microsecond difference — including the borrowing
case where stop's microsecond component is smaller than start's. -/
theorem timerDiffToTimeval_normalized (t : Timer)
    (h : timeval2microsec t.start_tv_ ≤ timeval2microsec t.end_tv_) :
    0 ≤ (TimerDiffToTimeval t).tv_sec ∧
    0 ≤ (TimerDiffToTimeval t).tv_usec ∧
    (TimerDiffToTimeval t).tv_usec < 1000000 ∧
    timeval2microsec (TimerDiffToTimeval t) =
      timeval2microsec t.end_tv_ - timeval2microsec t.start_tv_ := by
  have hd0 : 0 ≤ timeval2microsec t.end_tv_ - timeval2microsec t.start_tv_ :=
    sub_nonneg.mpr h
  refine ⟨Int.tdiv_nonneg hd0 (by decide), Int.tmod_nonneg _ hd0,
    Int.tmod_lt_of_pos _ (by decide), ?_⟩
  show Int.tdiv _ 1000000 * 1000000 + Int.tmod _ 1000000 = _
  rw [mul_comm]
  exact Int.tdiv_add_tmod _ 1000000

/-- Witness for C6 at a concrete borrowing pair: start 0.999999 s, stop
1.000000 s; the difference is 0 s 1 µs. -/
theorem timerDiffToTimeval_normalized_witness :
    timeval2microsec (Timer.mk ⟨0, 999999⟩ ⟨1, 0⟩).start_tv_ ≤
        timeval2microsec (Timer.mk ⟨0, 999999⟩ ⟨1, 0⟩).end_tv_ ∧
    (0 ≤ (TimerDiffToTimeval (Timer.mk ⟨0, 999999⟩ ⟨1, 0⟩)).tv_sec ∧
      0 ≤ (TimerDiffToTimeval (Timer.mk ⟨0, 999999⟩ ⟨1, 0⟩)).tv_usec ∧
      (TimerDiffToTimeval (Timer.mk ⟨0, 999999⟩ ⟨1, 0⟩)).tv_usec < 1000000 ∧
      timeval2microsec (TimerDiffToTimeval (Timer.mk ⟨0, 999999⟩ ⟨1, 0⟩)) =
        timeval2microsec (Timer.mk ⟨0, 999999⟩ ⟨1, 0⟩).end_tv_ -
          timeval2microsec (Timer.mk ⟨0, 999999⟩ ⟨1, 0⟩).start_tv_) :=
  ⟨by decide, timerDiffToTimeval_normalized (Timer.mk ⟨0, 999999⟩ ⟨1, 0⟩)
    (by decide)⟩

/-- C7: On a normalized non-negative interval the source's formatting
renders the seconds value, a dot, then the microseconds truncated to
milliseconds zero-padded to exactly 3 digits (the spec-side rendering
`formattedDiffSpec`). -/
theorem timerDiff_formats_three_digits (d : Timeval) (hs : 0 ≤ d.tv_sec)
    (h0 : 0 ≤ d.tv_usec) (h1 : d.tv_usec < 1000000) :
    formatTimeval d = formattedDiffSpec d := by
  obtain ⟨k, hk⟩ : ∃ k : Nat, d.tv_usec = Int.ofNat k :=
    ⟨d.tv_usec.toNat, (Int.toNat_of_nonneg h0).symm⟩
  rw [formatTimeval, formattedDiffSpec, hk]
  have hdiv : Int.tdiv (Int.ofNat k) 1000 = Int.ofNat (k / 1000) := rfl
  have hstr : toString (Int.ofNat (k / 1000)) = toString (k / 1000) := rfl
  have htn : (Int.ofNat k).toNat = k := rfl
  rw [hdiv, hstr, htn]
  have hklt : k < 1000000 := by
    have hik : (Int.ofNat k) < 1000000 := hk ▸ h1
    omega
  rw [ostreamPad_eq_threeDigit (k / 1000) (by omega)]

/-- Witness for C7: a difference of exactly 1,500,000 microseconds formats
as "1.500". -/
theorem timerDiff_formats_witness :
    TimerDiff (Timer.mk ⟨0, 0⟩ ⟨1, 500000⟩) = "1.500" := by
  have h := timerDiff_formats_three_digits ⟨1, 500000⟩ (by decide) (by decide)
    (by decide)
  calc TimerDiff (Timer.mk ⟨0, 0⟩ ⟨1, 500000⟩)
      = formatTimeval ⟨1, 500000⟩ := rfl
    _ = formattedDiffSpec ⟨1, 500000⟩ := h
    _ = "1.500" := rfl

/-- C8: `TimerDiffToTimeval` performs no validation of the timer state: for
concrete timestamp pairs with stop earlier than start it returns an
interval with a negative microsecond component (first pair) or a negative
seconds component (second pair), raising no failure (it is a total
function into `Timeval`, not an `Except`). -/
theorem timerDiffToTimeval_no_validation :
    timeval2microsec (Timer.mk ⟨0, 500000⟩ ⟨0, 0⟩).end_tv_ <
        timeval2microsec (Timer.mk ⟨0, 500000⟩ ⟨0, 0⟩).start_tv_ ∧
    TimerDiffToTimeval (Timer.mk ⟨0, 500000⟩ ⟨0, 0⟩) = ⟨0, -500000⟩ ∧
    (TimerDiffToTimeval (Timer.mk ⟨0, 500000⟩ ⟨0, 0⟩)).tv_usec < 0 ∧
    timeval2microsec (Timer.mk ⟨1, 0⟩ ⟨0, 0⟩).end_tv_ <
        timeval2microsec (Timer.mk ⟨1, 0⟩ ⟨0, 0⟩).start_tv_ ∧
    TimerDiffToTimeval (Timer.mk ⟨1, 0⟩ ⟨0, 0⟩) = ⟨-1, 0⟩ ∧
    (TimerDiffToTimeval (Timer.mk ⟨1, 0⟩ ⟨0, 0⟩)).tv_sec < 0 := by
  decide

/-- C9: The `TSNode` overload of `cf_assert` equals the string-only
overload applied to the message concatenated with the node's textual form,
and the `ts_node_string` call is made unconditionally — exactly once, also
when the condition is true and nothing is raised. -/
theorem cf_assert_ts_equiv (f : TSNode → String) (v : Bool) (m : String)
    (n : TSNode) :
    (cf_assert_ts f v m n).2 = cf_assert v (m ++ f n) ∧
    (cf_assert_ts f v m n).1 = [n] ∧
    (cf_assert_ts f true m n).1 = [n] :=
  ⟨rfl, rfl, rfl⟩

/-- C10: `StartTimer` writes only the start timestamp and `StopTimer` only
the stop timestamp, each leaving the other unchanged and returning the
clock-read system call's return code unchanged; hence re-starting after a
stop preserves the previously captured stop time. -/
theorem timer_start_stop_frame (sys sys0 : Int × Timeval) (t : Timer) :
    (StartTimer sys t).2.end_tv_ = t.end_tv_ ∧
    (StartTimer sys t).2.start_tv_ = sys.2 ∧
    (StartTimer sys t).1 = sys.1 ∧
    (StopTimer sys t).2.start_tv_ = t.start_tv_ ∧
    (StopTimer sys t).2.end_tv_ = sys.2 ∧
    (StopTimer sys t).1 = sys.1 ∧
    (StartTimer sys (StopTimer sys0 t).2).2.end_tv_ = sys0.2 :=
  ⟨rfl, rfl, rfl, rfl, rfl, rfl, rfl⟩
